import Mathlib

/-!
Verification of the quote-aggregator core of FinFusion (`tab3.py`):
the multi-provider stock-data fetch with fallback implemented by
`StockDataFetcher.get_live_stock_price`, together with the concrete
providers `FinnhubProvider.get_quote` and `YFinanceProvider.get_quote`
and the error-swallowing wrapper `safe_api_call`.

Python dictionaries whose values may be `None` are modelled as
association lists `List (String × Option Val)`: the outer structure
records key presence, the inner `Option` records a null value, so
`key not in result` (key absence) and `value is not None` (non-null
value) are distinct tests, exactly as in the source. Python functions
that may raise are modelled in `Except String`; `safe_api_call`
converts a raised exception into a default return value, mirroring
its `try/except` body.
-/

namespace FinFusion

/-- A value stored in a quote/company-info dictionary: a number or a string. -/
inductive Val where
  | num (q : ℚ)
  | str (s : String)
deriving DecidableEq, Repr

/-- A Python dict with string keys and possibly-null values,
as an association list (insertion order preserved, as in Python). -/
abbrev Dict := List (String × Option Val)

/-- Key lookup: `none` means the key is absent, `some none` means the key is
present with value `None`, `some (some v)` means the key holds `v`. -/
def dlookup : Dict → String → Option (Option Val)
  | [], _ => none
  | e :: rest, k => if e.1 = k then some e.2 else dlookup rest k

/-- `key in dict` test. -/
def Dict.hasKey (d : Dict) (k : String) : Bool :=
  (dlookup d k).isSome

/-- `dict[key] = value`: replace the value in place if the key is present
(Python keeps the original position), otherwise append. -/
def Dict.insertVal (d : Dict) (k : String) (v : Option Val) : Dict :=
  if d.hasKey k then d.map (fun e => if e.1 = k then (k, v) else e)
  else d ++ [(k, v)]

/-- `safe_api_call(func, error_msg, default_return)` (tab3.py lines 57–64):
run the call; on an exception, log and return the default. -/
def safe_api_call {α : Type} (call : Except String α) (default : α) : α :=
  match call with
  | .ok a => a
  | .error _ => default

/-- A stock-data provider as used by `StockDataFetcher`: both methods of the
repository's providers wrap their bodies in `safe_api_call`, so they are
total functions returning `None` (or `{}`) instead of raising. -/
structure Provider where
  get_quote : String → Option Dict
  get_company_info : String → Option Dict

/-- A provider whose methods may raise (the duck-typed interface before any
`safe_api_call` protection), used to state exception-safety claims. -/
structure ExcProvider where
  get_quote : String → Except String (Option Dict)
  get_company_info : String → Except String (Option Dict)

/-- The raw, possibly-raising bodies (`_get_quote`, `_get_info`, …) that a
repository provider passes to `safe_api_call`. -/
structure RawProvider where
  quoteCall : String → Except String (Option Dict)
  infoCall : String → Except String (Option Dict)

/-- A repository-style provider: each raw body wrapped in `safe_api_call`
with default `None`. -/
def RawProvider.toProvider (rp : RawProvider) : Provider where
  get_quote := fun t => safe_api_call (rp.quoteCall t) none
  get_company_info := fun t => safe_api_call (rp.infoCall t) none

/-- The same wrapped provider viewed at the possibly-raising interface:
since `safe_api_call` catches everything, each method always returns. -/
def RawProvider.toExc (rp : RawProvider) : ExcProvider where
  get_quote := fun t => .ok (safe_api_call (rp.quoteCall t) none)
  get_company_info := fun t => .ok (safe_api_call (rp.infoCall t) none)

/-- The quote loop of `get_live_stock_price`: try each provider in order;
on the first truthy quote (`if quote:`), adopt it (`result.update(quote)`
into the empty `result`) and break. Returns `[]` when no quote was adopted. -/
def quoteScan : List Provider → String → Dict
  | [], _ => []
  | p :: rest, t =>
    match p.get_quote t with
    | some d => if d.isEmpty then quoteScan rest t else d
    | none => quoteScan rest t

/-- The inner merge loop: `for key, value in company_info.items():
if key not in result and value is not None: result[key] = value`. -/
def mergeEntries : Dict → Dict → Dict
  | r, [] => r
  | r, e :: rest =>
    mergeEntries (if !(r.hasKey e.1) && e.2.isSome then r.insertVal e.1 e.2 else r) rest

/-- The company-info loop of `get_live_stock_price`: every provider is
visited, and a truthy `company_info` (`if company_info:`) is merged. -/
def infoScan : List Provider → String → Dict → Dict
  | [], _, r => r
  | p :: rest, t, r =>
    infoScan rest t
      (match p.get_company_info t with
       | some info => if info.isEmpty then r else mergeEntries r info
       | none => r)

/-- `StockDataFetcher.get_live_stock_price` (tab3.py lines 315–345).
The capture timestamp (`datetime.now().strftime(...)`) is passed in as
`now`. -/
def get_live_stock_price (providers : List Provider) (ticker : String)
    (now : String) : Option Dict :=
  if providers.isEmpty then none
  else
    let result := quoteScan providers ticker
    if result.isEmpty then none
    else
      let result := infoScan providers ticker result
      let result := result.insertVal "ticker" (some (Val.str ticker.toUpper))
      let result := result.insertVal "timestamp" (some (Val.str now))
      some result

/-- The quote loop over possibly-raising providers: the aggregator calls
`provider.get_quote(ticker)` with no `try/except` of its own, so an
exception propagates. -/
def quoteScanE : List ExcProvider → String → Except String Dict
  | [], _ => .ok []
  | p :: rest, t =>
    match p.get_quote t with
    | .error e => .error e
    | .ok none => quoteScanE rest t
    | .ok (some d) => if d.isEmpty then quoteScanE rest t else .ok d

/-- The company-info loop over possibly-raising providers. -/
def infoScanE : List ExcProvider → String → Dict → Except String Dict
  | [], _, r => .ok r
  | p :: rest, t, r =>
    match p.get_company_info t with
    | .error e => .error e
    | .ok none => infoScanE rest t r
    | .ok (some info) => infoScanE rest t (if info.isEmpty then r else mergeEntries r info)

/-- `get_live_stock_price` viewed at the possibly-raising interface:
provider exceptions, were any to escape a provider method, would
propagate to the caller. -/
def get_live_stock_price_exc (providers : List ExcProvider) (ticker : String)
    (now : String) : Except String (Option Dict) :=
  if providers.isEmpty then .ok none
  else
    match quoteScanE providers ticker with
    | .error e => .error e
    | .ok result =>
      if result.isEmpty then .ok none
      else
        match infoScanE providers ticker result with
        | .error e => .error e
        | .ok result2 =>
          .ok (some ((result2.insertVal "ticker"
              (some (Val.str ticker.toUpper))).insertVal "timestamp"
              (some (Val.str now))))

/-- The fields of a Finnhub `client.quote(ticker)` response that the code
reads: `c`, `pc`, `d`, `dp` (accessed with `[...]`, raising `KeyError` when
absent) and `h`, `l`, `o` (accessed with `.get`, yielding `None` when
absent). `none` means the field is missing from the response. -/
structure FinnhubResp where
  c : Option ℚ
  pc : Option ℚ
  d : Option ℚ
  dp : Option ℚ
  h : Option ℚ
  l : Option ℚ
  o : Option ℚ
deriving DecidableEq, Repr

/-- The body `_get_quote` of `FinnhubProvider.get_quote` (tab3.py lines
190–206): require `quote and quote.get('c') and quote['c'] > 0`, then build
the quote dict; `quote['pc']`, `quote['d']`, `quote['dp']` raise on a
missing key. -/
def finnhub_get_quote_raw (resp : Option FinnhubResp) : Except String (Option Dict) :=
  match resp with
  | none => .ok none
  | some q =>
    match q.c with
    | none => .ok none
    | some c =>
      if 0 < c then
        match q.pc, q.d, q.dp with
        | some pc, some chg, some chgp =>
          .ok (some [("price", some (Val.num c)),
                     ("previous_close", some (Val.num pc)),
                     ("change", some (Val.num chg)),
                     ("change_percent", some (Val.num chgp)),
                     ("high", q.h.map Val.num),
                     ("low", q.l.map Val.num),
                     ("open", q.o.map Val.num)])
        | _, _, _ => .error "KeyError"
      else .ok none

/-- `FinnhubProvider.get_quote`: the raw body guarded by `safe_api_call`
with default `None`. -/
def finnhub_get_quote (resp : Option FinnhubResp) : Option Dict :=
  safe_api_call (finnhub_get_quote_raw resp) none

/-- The fields of a yfinance `stock.info` mapping that the code reads.
`currentPrice` is both membership-tested (`'currentPrice' not in info`) and
read with `.get`, so its outer `Option` records key presence and the inner
one a null value; the other fields are only read with `.get`, collapsing
"missing" and "null" into `none`. `openPrice` stands for the key `open`. -/
structure YfInfo where
  currentPrice : Option (Option ℚ)
  regularMarketPrice : Option ℚ
  previousClose : Option ℚ
  dayHigh : Option ℚ
  dayLow : Option ℚ
  openPrice : Option ℚ
  volume : Option ℚ
deriving DecidableEq, Repr

/-- Python `a or b` on two optional numbers: the first operand when it is
truthy (non-null and nonzero), else the second. -/
def pyOrNum (a b : Option ℚ) : Option ℚ :=
  match a with
  | some v => if v = 0 then b else some v
  | none => b

/-- The body `_get_quote` of `YFinanceProvider.get_quote` (tab3.py lines
249–277): require `info` truthy with key `currentPrice`, take
`info.get('currentPrice') or info.get('regularMarketPrice')` as the price,
and require `if current and prev_close:`; change and change_percent are
computed, the remaining fields copied with `.get`. -/
def yf_get_quote_raw (info : Option YfInfo) : Except String (Option Dict) :=
  match info with
  | none => .ok none
  | some i =>
    match i.currentPrice with
    | none => .ok none
    | some cp =>
      match pyOrNum cp i.regularMarketPrice, i.previousClose with
      | some cur, some pc =>
        if cur ≠ 0 ∧ pc ≠ 0 then
          .ok (some [("price", some (Val.num cur)),
                     ("previous_close", some (Val.num pc)),
                     ("change", some (Val.num (cur - pc))),
                     ("change_percent", some (Val.num ((cur - pc) / pc * 100))),
                     ("high", i.dayHigh.map Val.num),
                     ("low", i.dayLow.map Val.num),
                     ("open", i.openPrice.map Val.num),
                     ("volume", i.volume.map Val.num)])
        else .ok none
      | _, _ => .ok none

/-- `YFinanceProvider.get_quote`: the raw body guarded by `safe_api_call`
with default `None`. -/
def yf_get_quote (info : Option YfInfo) : Option Dict :=
  safe_api_call (yf_get_quote_raw info) none

/-- The construction environment of `StockDataFetcher.__init__`: whether
each provider's import/client construction succeeds, and the behaviour of
the provider object obtained when it does. -/
structure Env where
  finnhubImportOk : Bool
  yfinanceImportOk : Bool
  finnhubProvider : Provider
  yfinanceProvider : Provider

/-- Python truthiness of an optional string (`None` and `""` are falsy). -/
def truthyStr : Option String → Bool
  | none => false
  | some s => !s.isEmpty

/-- `validate_api_key` (tab3.py lines 52–55): raise `ValueError` when the
key is falsy. -/
def validate_api_key (key : Option String) : Except String Unit :=
  if truthyStr key then .ok () else .error "key not found in .env file"

/-- `FinnhubProvider.__init__`: validate the key, then `import finnhub` and
build the client (either may raise). -/
def mkFinnhubProvider (env : Env) (api_key : Option String) : Except String Provider :=
  match validate_api_key api_key with
  | .error e => .error e
  | .ok _ => if env.finnhubImportOk then .ok env.finnhubProvider
             else .error "import finnhub failed"

/-- `YFinanceProvider.__init__`: `import yfinance` (may raise). -/
def mkYFinanceProvider (env : Env) : Except String Provider :=
  if env.yfinanceImportOk then .ok env.yfinanceProvider
  else .error "import yfinance failed"

namespace StockDataFetcher

/-- `StockDataFetcher.__init__` (tab3.py lines 299–313): add Finnhub when a
key is configured, then yfinance; each construction is wrapped in its own
`try/except` that logs and continues, so the provider list may end up
empty. -/
def init (env : Env) (finnhub_key : Option String) : List Provider :=
  let ps : List Provider := []
  let ps := if truthyStr finnhub_key then
      match mkFinnhubProvider env finnhub_key with
      | .ok p => ps ++ [p]
      | .error _ => ps
    else ps
  match mkYFinanceProvider env with
  | .ok p => ps ++ [p]
  | .error _ => ps

/-- `StockDataFetcher.__init__` viewed at the possibly-raising interface:
both provider constructions sit inside `try/except` blocks, so the only
way the constructor could raise would be outside them — there is no such
code, which the theorem about this definition makes explicit. -/
def init_exc (env : Env) (finnhub_key : Option String) : Except String (List Provider) :=
  let ps : List Provider := []
  let ps := if truthyStr finnhub_key then
      match mkFinnhubProvider env finnhub_key with
      | .ok p => ps ++ [p]
      | .error _ => ps
    else ps
  match mkYFinanceProvider env with
  | .ok p => .ok (ps ++ [p])
  | .error _ => .ok ps

end StockDataFetcher

/-- Specification-side reading of the inner merge loop: the first entry for
key `k` in `info` whose value is non-null, scanning in insertion order. -/
def firstNonNullEntry : Dict → String → Option Val
  | [], _ => none
  | e :: rest, k =>
    match e.2 with
    | some w => if e.1 = k then some w else firstNonNullEntry rest k
    | none => firstNonNullEntry rest k

/-- Specification-side reading of the company-info pass: the first non-null
value for key `k` contributed by any provider's truthy `get_company_info`
result, in priority order. -/
def firstInfoVal : List Provider → String → String → Option Val
  | [], _, _ => none
  | p :: rest, t, k =>
    match p.get_company_info t with
    | some info =>
      if info.isEmpty then firstInfoVal rest t k
      else
        match firstNonNullEntry info k with
        | some v => some v
        | none => firstInfoVal rest t k
    | none => firstInfoVal rest t k

/-- The value stored under key `k` in an optional dict. -/
def fieldOf (q : Option Dict) (k : String) : Option (Option Val) :=
  match q with
  | some d => dlookup d k
  | none => none

/-! ### Concrete instances used to exercise the theorems -/

/-- A provider with no data for any ticker. -/
def pNull : Provider where
  get_quote := fun _ => none
  get_company_info := fun _ => none

/-- A provider whose raw bodies always raise. -/
def rawThrow : RawProvider where
  quoteCall := fun _ => .error "network down"
  infoCall := fun _ => .error "network down"

/-- Provider B of the spec scenario: price 150.00, no P/E ratio. -/
def provB : Provider where
  get_quote := fun _ => some [("price", some (Val.num 150))]
  get_company_info := fun _ => some [("market_cap", some (Val.num 2500000000))]

/-- Provider C of the spec scenario: price 155.00, P/E ratio 30.2. -/
def provC : Provider where
  get_quote := fun _ => some [("price", some (Val.num 155))]
  get_company_info := fun _ => some [("pe_ratio", some (Val.num 30.2))]

/-- A provider whose quote carries a `high` key with a null value. -/
def provHighNull : Provider where
  get_quote := fun _ => some [("price", some (Val.num 150)), ("high", none)]
  get_company_info := fun _ => none

/-- A provider that could supply a non-null `high` via company info. -/
def provHighInfo : Provider where
  get_quote := fun _ => none
  get_company_info := fun _ => some [("high", some (Val.num 200))]

/-- A construction environment in which no provider can be built. -/
def envNone : Env where
  finnhubImportOk := false
  yfinanceImportOk := false
  finnhubProvider := pNull
  yfinanceProvider := pNull

/-- The record returned for ticker `"aapl"` by an aggregator over `provB`. -/
def wResult : Dict :=
  (get_live_stock_price [provB] "aapl" "2025-01-02 10:00:00").getD []

/-- A yfinance `stock.info` with a negative current price: the code accepts
it, since `if current and prev_close:` only tests truthiness, not sign. -/
def yfNegInfo : YfInfo where
  currentPrice := some (some (-5))
  regularMarketPrice := none
  previousClose := some 10
  dayHigh := none
  dayLow := none
  openPrice := none
  volume := none

/-- A well-formed Finnhub response (`d` and `dp` as reported upstream). -/
def fhWResp : FinnhubResp where
  c := some 100
  pc := some 50
  d := some 2
  dp := some 4
  h := none
  l := none
  o := none

/-- A Finnhub response whose `d`/`dp` fields are inconsistent with `c` and
`pc`; the code copies them into the quote without checking. -/
def fhBadResp : FinnhubResp where
  c := some 100
  pc := some 50
  d := some 7
  dp := some 3
  h := none
  l := none
  o := none

/-- The quote dict built from `fhWResp`. -/
def fhWDict : Dict := (finnhub_get_quote (some fhWResp)).getD []

/-- A well-formed yfinance `stock.info`. -/
def yfWInfo : YfInfo where
  currentPrice := some (some 150)
  regularMarketPrice := none
  previousClose := some 100
  dayHigh := none
  dayLow := none
  openPrice := none
  volume := none

/-- The quote dict built from `yfWInfo`. -/
def yfWDict : Dict := (yf_get_quote (some yfWInfo)).getD []

/-! ### Lemmas about dictionary operations -/

theorem dlookup_append (d₁ d₂ : Dict) (k : String) :
    dlookup (d₁ ++ d₂) k =
      match dlookup d₁ k with
      | some v => some v
      | none => dlookup d₂ k := by
  induction d₁ with
  | nil => simp [dlookup]
  | cons e rest ih =>
    by_cases h : e.1 = k
    · simp [dlookup, h]
    · simp [dlookup, h, ih]

theorem dlookup_map_replace (d : Dict) (k : String) (v : Option Val) :
    dlookup (d.map (fun e => if e.1 = k then (k, v) else e)) k
      = (dlookup d k).map (fun _ => v) := by
  induction d with
  | nil => rfl
  | cons e rest ih =>
    by_cases h : e.1 = k
    · simp [dlookup, h]
    · simp [dlookup, h, ih]

theorem dlookup_map_replace_other (d : Dict) (k k' : String) (v : Option Val)
    (hne : k' ≠ k) :
    dlookup (d.map (fun e => if e.1 = k' then (k', v) else e)) k = dlookup d k := by
  induction d with
  | nil => rfl
  | cons e rest ih =>
    by_cases h : e.1 = k'
    · simp [dlookup, h, hne, ih]
    · simp [dlookup, h, ih]

theorem dlookup_insertVal_same (d : Dict) (k : String) (v : Option Val) :
    dlookup (d.insertVal k v) k = some v := by
  unfold Dict.insertVal
  by_cases h : d.hasKey k = true
  · rw [if_pos h, dlookup_map_replace]
    unfold Dict.hasKey at h
    cases hd : dlookup d k with
    | none => rw [hd] at h; simp at h
    | some w => simp
  · rw [if_neg h, dlookup_append]
    unfold Dict.hasKey at h
    cases hd : dlookup d k with
    | some w => rw [hd] at h; simp at h
    | none => simp [dlookup]

theorem dlookup_insertVal_other (d : Dict) (k k' : String) (v : Option Val)
    (hne : k' ≠ k) :
    dlookup (d.insertVal k' v) k = dlookup d k := by
  unfold Dict.insertVal
  by_cases h : d.hasKey k' = true
  · rw [if_pos h, dlookup_map_replace_other d k k' v hne]
  · rw [if_neg h, dlookup_append]
    cases hd : dlookup d k with
    | some w => simp
    | none => simp [dlookup, hne]

theorem mergeEntries_preserve (info : Dict) (r : Dict) (k : String)
    (h : (dlookup r k).isSome = true) :
    dlookup (mergeEntries r info) k = dlookup r k := by
  induction info generalizing r with
  | nil => rfl
  | cons e rest ih =>
    unfold mergeEntries
    by_cases hc : (!(r.hasKey e.1) && e.2.isSome) = true
    · rw [if_pos hc]
      simp only [Bool.and_eq_true, Bool.not_eq_true'] at hc
      have hne : e.1 ≠ k := by
        intro hek
        have hc1 := hc.1
        rw [Dict.hasKey, hek, h] at hc1
        exact Bool.noConfusion hc1
      have h' : (dlookup (r.insertVal e.1 e.2) k).isSome = true := by
        rw [dlookup_insertVal_other r k e.1 e.2 hne]; exact h
      rw [ih _ h', dlookup_insertVal_other r k e.1 e.2 hne]
    · rw [if_neg hc]; exact ih r h

theorem mergeEntries_cons (r : Dict) (e : String × Option Val) (rest : Dict) :
    mergeEntries r (e :: rest)
      = mergeEntries (if !(r.hasKey e.1) && e.2.isSome then r.insertVal e.1 e.2 else r)
          rest := rfl

theorem firstNonNullEntry_cons_some (k k' : String) (w : Val) (rest : Dict) :
    firstNonNullEntry ((k', some w) :: rest) k
      = if k' = k then some w else firstNonNullEntry rest k := rfl

theorem firstNonNullEntry_cons_none (k k' : String) (rest : Dict) :
    firstNonNullEntry ((k', none) :: rest) k = firstNonNullEntry rest k := rfl

theorem mergeEntries_absent (info : Dict) (r : Dict) (k : String)
    (h : dlookup r k = none) :
    dlookup (mergeEntries r info) k = (firstNonNullEntry info k).map some := by
  induction info generalizing r with
  | nil => simp [mergeEntries, firstNonNullEntry, h]
  | cons e rest ih =>
    obtain ⟨k', v⟩ := e
    rw [mergeEntries_cons]
    cases v with
    | none =>
      rw [firstNonNullEntry_cons_none]
      simp only [Option.isSome_none, Bool.and_false, Bool.false_eq_true, if_false]
      exact ih r h
    | some w =>
      rw [firstNonNullEntry_cons_some]
      by_cases hek : k' = k
      · subst hek
        have hkk : r.hasKey k' = false := by
          rw [Dict.hasKey, h]; rfl
        have hcond : (!r.hasKey k' && (some w : Option Val).isSome) = true := by
          rw [hkk]; rfl
        rw [if_pos hcond, if_pos rfl]
        have hins : dlookup (r.insertVal k' (some w)) k' = some (some w) :=
          dlookup_insertVal_same r k' (some w)
        rw [mergeEntries_preserve rest _ k' (by rw [hins]; rfl), hins]
        rfl
      · rw [if_neg hek]
        by_cases hk1 : r.hasKey k' = true
        · have hcond : (!r.hasKey k' && (some w : Option Val).isSome) = false := by
            rw [hk1]; rfl
          rw [hcond]
          simp only [Bool.false_eq_true, if_false]
          exact ih r h
        · have hk1' : r.hasKey k' = false := by
            cases hv : r.hasKey k' with
            | true => exact absurd hv hk1
            | false => rfl
          have hcond : (!r.hasKey k' && (some w : Option Val).isSome) = true := by
            rw [hk1']; rfl
          rw [if_pos hcond]
          refine ih _ ?_
          rw [dlookup_insertVal_other r k k' (some w) hek]
          exact h

theorem infoScan_preserve (ps : List Provider) (t : String) (r : Dict) (k : String)
    (h : (dlookup r k).isSome = true) :
    dlookup (infoScan ps t r) k = dlookup r k := by
  induction ps generalizing r with
  | nil => rfl
  | cons p rest ih =>
    unfold infoScan
    cases hci : p.get_company_info t with
    | none => exact ih r h
    | some info =>
      by_cases hie : info.isEmpty = true
      · simp only [hie, if_true]
        exact ih r h
      · simp only [hie, Bool.false_eq_true, if_false]
        have h1 : (dlookup (mergeEntries r info) k).isSome = true := by
          rw [mergeEntries_preserve info r k h]; exact h
        rw [ih _ h1, mergeEntries_preserve info r k h]

theorem infoScan_absent (ps : List Provider) (t : String) (r : Dict) (k : String)
    (h : dlookup r k = none) :
    dlookup (infoScan ps t r) k = (firstInfoVal ps t k).map some := by
  induction ps generalizing r with
  | nil => simp [infoScan, firstInfoVal, h]
  | cons p rest ih =>
    unfold infoScan firstInfoVal
    cases hci : p.get_company_info t with
    | none => exact ih r h
    | some info =>
      by_cases hie : info.isEmpty = true
      · simp only [hie, if_true]
        exact ih r h
      · simp only [hie, Bool.false_eq_true, if_false]
        cases hf : firstNonNullEntry info k with
        | some v =>
          have hm : dlookup (mergeEntries r info) k = some (some v) := by
            rw [mergeEntries_absent info r k h, hf]; rfl
          rw [infoScan_preserve rest t _ k (by rw [hm]; rfl), hm]
          rfl
        | none =>
          have hm : dlookup (mergeEntries r info) k = none := by
            rw [mergeEntries_absent info r k h, hf]; rfl
          exact ih _ hm

/-! ### Lemmas about the two provider scans -/

theorem quoteScan_append_none (pre ps : List Provider) (t : String)
    (h : ∀ q ∈ pre, q.get_quote t = none) :
    quoteScan (pre ++ ps) t = quoteScan ps t := by
  induction pre with
  | nil => rfl
  | cons p rest ih =>
    have hp : p.get_quote t = none := h p (by simp)
    have hrest : ∀ q ∈ rest, q.get_quote t = none := fun q hq => h q (by simp [hq])
    simp only [List.cons_append, quoteScan, hp]
    exact ih hrest

theorem quoteScan_cons_some (p : Provider) (ps : List Provider) (t : String) (d : Dict)
    (hq : p.get_quote t = some d) (hne : d ≠ []) :
    quoteScan (p :: ps) t = d := by
  have hde : d.isEmpty = false := by
    cases d with
    | nil => exact absurd rfl hne
    | cons a l => rfl
  simp [quoteScan, hq, hde]

theorem infoScan_congr (ps₁ ps₂ : List Provider) (t : String) (r : Dict)
    (h : ps₁.map (fun q => q.get_company_info t) = ps₂.map (fun q => q.get_company_info t)) :
    infoScan ps₁ t r = infoScan ps₂ t r := by
  induction ps₁ generalizing ps₂ r with
  | nil =>
    cases ps₂ with
    | nil => rfl
    | cons q qs => simp at h
  | cons p rest ih =>
    cases ps₂ with
    | nil => simp at h
    | cons q qs =>
      simp only [List.map_cons, List.cons.injEq] at h
      unfold infoScan
      rw [h.1]
      exact ih qs _ h.2

theorem quoteScanE_toExc (raws : List RawProvider) (t : String) :
    quoteScanE (raws.map RawProvider.toExc) t
      = .ok (quoteScan (raws.map RawProvider.toProvider) t) := by
  induction raws with
  | nil => rfl
  | cons rp rest ih =>
    simp only [List.map_cons]
    unfold quoteScanE quoteScan
    cases hx : safe_api_call (rp.quoteCall t) none with
    | none => simp [RawProvider.toExc, RawProvider.toProvider, hx, ih]
    | some d =>
      by_cases hd : d.isEmpty = true
      · simp [RawProvider.toExc, RawProvider.toProvider, hx, hd, ih]
      · simp [RawProvider.toExc, RawProvider.toProvider, hx, hd]

theorem infoScanE_toExc (raws : List RawProvider) (t : String) (r : Dict) :
    infoScanE (raws.map RawProvider.toExc) t r
      = .ok (infoScan (raws.map RawProvider.toProvider) t r) := by
  induction raws generalizing r with
  | nil => rfl
  | cons rp rest ih =>
    simp only [List.map_cons]
    unfold infoScanE infoScan
    cases hx : safe_api_call (rp.infoCall t) none with
    | none => simp [RawProvider.toExc, RawProvider.toProvider, hx, ih]
    | some info => simp [RawProvider.toExc, RawProvider.toProvider, hx, ih]

theorem glsp_exc_toExc (raws : List RawProvider) (t now : String) :
    get_live_stock_price_exc (raws.map RawProvider.toExc) t now
      = .ok (get_live_stock_price (raws.map RawProvider.toProvider) t now) := by
  unfold get_live_stock_price_exc get_live_stock_price
  rw [quoteScanE_toExc raws t]
  by_cases he : (raws.map RawProvider.toExc).isEmpty = true
  · have he2 : (raws.map RawProvider.toProvider).isEmpty = true := by
      cases raws with
      | nil => rfl
      | cons a l => exact absurd he (by simp)
    simp [he, he2]
  · have he1 : (raws.map RawProvider.toExc).isEmpty = false := by
      cases raws with
      | nil => exact absurd rfl he
      | cons a l => rfl
    have he2 : (raws.map RawProvider.toProvider).isEmpty = false := by
      cases raws with
      | nil => exact absurd rfl he
      | cons a l => rfl
    simp only [he1, he2, Bool.false_eq_true, if_false]
    cases hsc : quoteScan (raws.map RawProvider.toProvider) t with
    | nil => simp
    | cons a l =>
      simp only [List.isEmpty_cons, Bool.false_eq_true, if_false]
      rw [infoScanE_toExc raws t (a :: l)]

theorem quoteScan_middle_null (pre post : List Provider) (pnull : Provider) (t : String)
    (hq : pnull.get_quote t = none) :
    quoteScan (pre ++ pnull :: post) t = quoteScan (pre ++ post) t := by
  induction pre with
  | nil => simp [quoteScan, hq]
  | cons p rest ih =>
    simp only [List.cons_append, quoteScan]
    cases p.get_quote t with
    | none => exact ih
    | some d =>
      by_cases hd : d.isEmpty = true
      · simp [hd, ih]
      · simp [hd]

theorem infoScan_middle_null (pre post : List Provider) (pnull : Provider) (t : String)
    (r : Dict) (hi : pnull.get_company_info t = none) :
    infoScan (pre ++ pnull :: post) t r = infoScan (pre ++ post) t r := by
  induction pre generalizing r with
  | nil => simp [infoScan, hi]
  | cons p rest ih =>
    simp only [List.cons_append, infoScan]
    exact ih _

theorem glsp_skip_null (pre post : List Provider) (pnull : Provider) (t now : String)
    (hq : pnull.get_quote t = none) (hi : pnull.get_company_info t = none) :
    get_live_stock_price (pre ++ pnull :: post) t now
      = get_live_stock_price (pre ++ post) t now := by
  by_cases hpp : pre ++ post = []
  · obtain ⟨hpre, hpost⟩ := List.append_eq_nil.mp hpp
    subst hpre; subst hpost
    simp [get_live_stock_price, quoteScan, hq]
  · have h1 : (pre ++ pnull :: post).isEmpty = false := by
      cases pre with
      | nil => rfl
      | cons a l => rfl
    have h2 : (pre ++ post).isEmpty = false := by
      cases hc : pre ++ post with
      | nil => exact absurd hc hpp
      | cons a l => rfl
    unfold get_live_stock_price
    rw [quoteScan_middle_null pre post pnull t hq]
    simp only [h1, h2, Bool.false_eq_true, if_false]
    by_cases hqe : (quoteScan (pre ++ post) t).isEmpty = true
    · simp [hqe]
    · simp only [hqe, Bool.false_eq_true, if_false]
      rw [infoScan_middle_null pre post pnull t _ hi]

/-- When the prefix providers return null quotes and `p` returns a nonempty
quote `d`, the aggregation adopts `d` as the base result and returns it
enriched by the company-info pass, with ticker and timestamp attached. -/
theorem glsp_adopted (pre post : List Provider) (p : Provider) (t now : String) (d : Dict)
    (hpre : ∀ q ∈ pre, q.get_quote t = none)
    (hq : p.get_quote t = some d) (hne : d ≠ []) :
    get_live_stock_price (pre ++ p :: post) t now
      = some (((infoScan (pre ++ p :: post) t d).insertVal "ticker"
          (some (Val.str t.toUpper))).insertVal "timestamp" (some (Val.str now))) := by
  have hscan : quoteScan (pre ++ p :: post) t = d := by
    rw [quoteScan_append_none pre (p :: post) t hpre, quoteScan_cons_some p post t d hq hne]
  have h1 : (pre ++ p :: post).isEmpty = false := by
    cases pre with
    | nil => rfl
    | cons a l => rfl
  have hde : d.isEmpty = false := by
    cases d with
    | nil => exact absurd rfl hne
    | cons a l => rfl
  unfold get_live_stock_price
  rw [hscan]
  simp only [h1, hde, Bool.false_eq_true, if_false]

theorem dlookup_final_ticker (m : Dict) (v1 v2 : Option Val) :
    dlookup ((m.insertVal "ticker" v1).insertVal "timestamp" v2) "ticker" = some v1 := by
  rw [dlookup_insertVal_other _ "ticker" "timestamp" v2 (by decide),
    dlookup_insertVal_same]

theorem dlookup_final_timestamp (m : Dict) (v1 v2 : Option Val) :
    dlookup ((m.insertVal "ticker" v1).insertVal "timestamp" v2) "timestamp" = some v2 :=
  dlookup_insertVal_same _ "timestamp" v2

theorem dlookup_final_other (m : Dict) (v1 v2 : Option Val) (k : String)
    (hkt : k ≠ "ticker") (hks : k ≠ "timestamp") :
    dlookup ((m.insertVal "ticker" v1).insertVal "timestamp" v2) k = dlookup m k := by
  rw [dlookup_insertVal_other _ k "timestamp" v2 (Ne.symm hks),
    dlookup_insertVal_other _ k "ticker" v1 (Ne.symm hkt)]

theorem dlookup_cons_self (k : String) (v : Option Val) (rest : Dict) :
    dlookup ((k, v) :: rest) k = some v := by
  simp [dlookup]

theorem dlookup_cons_ne (k k' : String) (v : Option Val) (rest : Dict) (h : k' ≠ k) :
    dlookup ((k', v) :: rest) k = dlookup rest k := by
  simp [dlookup, h]

/-- Every non-null result of `FinnhubProvider.get_quote` comes from a
response with `c > 0` and present `pc`, `d`, `dp`, and is the literal dict
the code builds from those fields. -/
theorem finnhub_quote_shape (resp : Option FinnhubResp) (df : Dict)
    (hf : finnhub_get_quote resp = some df) :
    ∃ (c pc chg chgp : ℚ) (q : FinnhubResp), resp = some q ∧ 0 < c ∧
      q.c = some c ∧ q.pc = some pc ∧ q.d = some chg ∧ q.dp = some chgp ∧
      df = [("price", some (Val.num c)),
            ("previous_close", some (Val.num pc)),
            ("change", some (Val.num chg)),
            ("change_percent", some (Val.num chgp)),
            ("high", q.h.map Val.num),
            ("low", q.l.map Val.num),
            ("open", q.o.map Val.num)] := by
  cases resp with
  | none => simp [finnhub_get_quote, finnhub_get_quote_raw, safe_api_call] at hf
  | some q =>
    simp only [finnhub_get_quote, finnhub_get_quote_raw] at hf
    cases hc : q.c with
    | none => simp only [hc] at hf; simp [safe_api_call] at hf
    | some c =>
      simp only [hc] at hf
      by_cases h0 : (0 : ℚ) < c
      · rw [if_pos h0] at hf
        rcases hpc : q.pc with _ | pc <;> rcases hd2 : q.d with _ | chg <;>
            rcases hdp : q.dp with _ | chgp <;>
            simp only [hpc, hd2, hdp] at hf <;> simp [safe_api_call] at hf
        exact ⟨c, pc, chg, chgp, q, rfl, h0, hc, hpc, hd2, hdp, hf.symm⟩
      · rw [if_neg h0] at hf; simp [safe_api_call] at hf

/-- Every non-null result of `YFinanceProvider.get_quote` comes from an
info mapping with a truthy current price and previous close, and is the
literal dict the code builds, with `change` and `change_percent` computed
from `price` and `previous_close`. -/
theorem yf_quote_shape (info : Option YfInfo) (dy : Dict)
    (hy : yf_get_quote info = some dy) :
    ∃ (cur pc : ℚ) (i : YfInfo), info = some i ∧ cur ≠ 0 ∧ pc ≠ 0 ∧
      i.previousClose = some pc ∧
      dy = [("price", some (Val.num cur)),
            ("previous_close", some (Val.num pc)),
            ("change", some (Val.num (cur - pc))),
            ("change_percent", some (Val.num ((cur - pc) / pc * 100))),
            ("high", i.dayHigh.map Val.num),
            ("low", i.dayLow.map Val.num),
            ("open", i.openPrice.map Val.num),
            ("volume", i.volume.map Val.num)] := by
  cases info with
  | none => simp [yf_get_quote, yf_get_quote_raw, safe_api_call] at hy
  | some i =>
    simp only [yf_get_quote, yf_get_quote_raw] at hy
    cases hcp : i.currentPrice with
    | none => simp only [hcp] at hy; simp [safe_api_call] at hy
    | some cp =>
      simp only [hcp] at hy
      cases hcur : pyOrNum cp i.regularMarketPrice with
      | none => simp only [hcur] at hy; simp [safe_api_call] at hy
      | some cur =>
        simp only [hcur] at hy
        cases hpv : i.previousClose with
        | none => simp only [hpv] at hy; simp [safe_api_call] at hy
        | some pc =>
          simp only [hpv] at hy
          by_cases hcc : cur ≠ 0 ∧ pc ≠ 0
          · rw [if_pos hcc] at hy
            simp [safe_api_call] at hy
            exact ⟨cur, pc, i, rfl, hcc.1, hcc.2, hpv, hy.symm⟩
          · rw [if_neg hcc] at hy; simp [safe_api_call] at hy

/-! ### The claims -/

/-- Claim C1: for every ticker and ordered provider list,
`get_live_stock_price` adopts the quote of the first provider whose
`get_quote` returns a non-null quote as the base result, the result's
price equals that provider's price, and no later provider's `get_quote`
influences the result (providers after the first success are not queried
for price data); earlier providers returning null are fallen through. -/
theorem claim_C1 (pre post post' : List Provider) (p : Provider) (t now : String)
    (d : Dict) (pv : Option Val)
    (hpre : ∀ q ∈ pre, q.get_quote t = none)
    (hq : p.get_quote t = some d)
    (hprice : dlookup d "price" = some pv)
    (hpost : post.map (fun q => q.get_company_info t)
      = post'.map (fun q => q.get_company_info t)) :
    (∃ r, get_live_stock_price (pre ++ p :: post) t now = some r ∧
        dlookup r "price" = some pv) ∧
    get_live_stock_price (pre ++ p :: post) t now
      = get_live_stock_price (pre ++ p :: post') t now := by
  have hne : d ≠ [] := by
    intro hnil
    rw [hnil] at hprice
    simp [dlookup] at hprice
  have hA := glsp_adopted pre post p t now d hpre hq hne
  have hB := glsp_adopted pre post' p t now d hpre hq hne
  constructor
  · refine ⟨_, hA, ?_⟩
    rw [dlookup_final_other _ _ _ "price" (by decide) (by decide),
      infoScan_preserve _ t d "price" (by rw [hprice]; rfl)]
    exact hprice
  · rw [hA, hB]
    have hmap : (pre ++ p :: post).map (fun q => q.get_company_info t)
        = (pre ++ p :: post').map (fun q => q.get_company_info t) := by
      simp [hpost]
    rw [infoScan_congr _ _ t d hmap]

/-- Witness for C1 at the spec's fallback scenario: P1 has no quote, P2
quotes 155; the result price is P2's. -/
theorem claim_C1_witness :
    ∃ r, get_live_stock_price [pNull, provC] "AAPL" "2025-01-02 10:00:00" = some r ∧
      dlookup r "price" = some (some (Val.num 155)) :=
  (claim_C1 [pNull] [] [] provC "AAPL" "2025-01-02 10:00:00"
    [("price", some (Val.num 155))] (some (Val.num 155))
    (by intro q hq; rw [List.mem_singleton] at hq; subst hq; rfl)
    rfl (by decide) rfl).1

/-- Claim C2: once a quote is adopted, the company-info pass visits all
providers in priority order and, for any field absent from the base quote
(and distinct from the attached `ticker`/`timestamp`), the merged result
holds exactly the first non-null value for it across the providers'
company info, a later provider never overwriting an earlier value. -/
theorem claim_C2 (pre post : List Provider) (p : Provider) (t now k : String) (d : Dict)
    (hpre : ∀ q ∈ pre, q.get_quote t = none)
    (hq : p.get_quote t = some d) (hne : d ≠ [])
    (hk : dlookup d k = none) (hkt : k ≠ "ticker") (hks : k ≠ "timestamp") :
    ∃ r, get_live_stock_price (pre ++ p :: post) t now = some r ∧
      dlookup r k = (firstInfoVal (pre ++ p :: post) t k).map some := by
  refine ⟨_, glsp_adopted pre post p t now d hpre hq hne, ?_⟩
  rw [dlookup_final_other _ _ _ k hkt hks]
  exact infoScan_absent (pre ++ p :: post) t d k hk

/-- Witness for C2 at the spec's concrete scenario: A throws, B quotes
150.00 with no P/E, C has P/E 30.2; the result carries C's P/E. -/
theorem claim_C2_witness :
    ∃ r, get_live_stock_price [RawProvider.toProvider rawThrow, provB, provC]
        "AAPL" "2025-01-02 10:00:00" = some r ∧
      dlookup r "pe_ratio" = some (some (Val.num 30.2)) := by
  obtain ⟨r, hr, hlk⟩ := claim_C2 [RawProvider.toProvider rawThrow] [provC] provB
    "AAPL" "2025-01-02 10:00:00" "pe_ratio" [("price", some (Val.num 150))]
    (by intro q hq; rw [List.mem_singleton] at hq; subst hq; rfl)
    rfl (by decide) (by decide) (by decide) (by decide)
  exact ⟨r, hr, by rw [hlk]; rfl⟩

/-- Claim C3: when no provider returns a non-null quote, the aggregation
returns null ("not found") as an ordinary value. -/
theorem claim_C3 (providers : List Provider) (t now : String)
    (h : ∀ p ∈ providers, p.get_quote t = none) :
    get_live_stock_price providers t now = none := by
  have hscan : quoteScan providers t = [] := by
    have h2 := quoteScan_append_none providers [] t h
    simpa using h2
  unfold get_live_stock_price
  by_cases he : providers.isEmpty = true
  · simp [he]
  · have he' : providers.isEmpty = false := by
      cases hv : providers.isEmpty with
      | true => exact absurd hv he
      | false => rfl
    simp [he', hscan]

/-- Witness for C3 at the spec's scenario: two providers, both null. -/
theorem claim_C3_witness :
    get_live_stock_price [pNull, pNull] "ZZZZ" "2025-01-02 10:00:00" = none :=
  claim_C3 [pNull, pNull] "ZZZZ" "2025-01-02 10:00:00" (by
    intro p hp
    rcases List.mem_cons.mp hp with h | h
    · subst h; rfl
    · rw [List.mem_singleton] at h; subst h; rfl)

/-- Claim C4: the aggregation never raises — every raw provider body,
throwing or not, is wrapped by `safe_api_call`, so the possibly-raising
view of `get_live_stock_price` always returns `.ok`; and a provider whose
calls throw contributes nothing: it can be dropped from the list without
changing the result. -/
theorem claim_C4 (raws pre post : List RawProvider) (rp : RawProvider)
    (t now e₁ e₂ : String)
    (h1 : rp.quoteCall t = .error e₁) (h2 : rp.infoCall t = .error e₂) :
    get_live_stock_price_exc (raws.map RawProvider.toExc) t now
      = .ok (get_live_stock_price (raws.map RawProvider.toProvider) t now) ∧
    get_live_stock_price ((pre ++ rp :: post).map RawProvider.toProvider) t now
      = get_live_stock_price ((pre ++ post).map RawProvider.toProvider) t now := by
  constructor
  · exact glsp_exc_toExc raws t now
  · have hq : (RawProvider.toProvider rp).get_quote t = none := by
      show safe_api_call (rp.quoteCall t) none = none
      rw [h1]; rfl
    have hi : (RawProvider.toProvider rp).get_company_info t = none := by
      show safe_api_call (rp.infoCall t) none = none
      rw [h2]; rfl
    have hs := glsp_skip_null (pre.map RawProvider.toProvider)
      (post.map RawProvider.toProvider) (RawProvider.toProvider rp) t now hq hi
    simpa using hs

/-- Witness for C4: a single always-throwing provider — the call returns
`.ok` and the throwing provider is equivalent to no provider at all. -/
theorem claim_C4_witness :
    get_live_stock_price_exc ([rawThrow].map RawProvider.toExc) "AAPL" "2025-01-02 10:00:00"
      = .ok (get_live_stock_price ([rawThrow].map RawProvider.toProvider)
          "AAPL" "2025-01-02 10:00:00") ∧
    get_live_stock_price ((([] : List RawProvider) ++ rawThrow :: []).map
        RawProvider.toProvider) "AAPL" "2025-01-02 10:00:00"
      = get_live_stock_price ((([] : List RawProvider) ++ []).map
          RawProvider.toProvider) "AAPL" "2025-01-02 10:00:00" :=
  claim_C4 [rawThrow] [] [] rawThrow "AAPL" "2025-01-02 10:00:00"
    "network down" "network down" rfl rfl

/-- Counterexample to C5 as stated: in an environment where no provider
can be constructed, `StockDataFetcher.__init__` does NOT fail fast — it
returns normally (`.ok`) with an empty provider list, and the later call
reports the per-call "not found" value. -/
theorem claim_C5_cex :
    StockDataFetcher.init_exc envNone none = .ok [] ∧
    get_live_stock_price (StockDataFetcher.init envNone none)
      "AAPL" "2025-01-02 10:00:00" = none := by
  constructor <;> rfl

/-- Claim C5 as amended: construction never raises — provider-construction
failures are caught and logged inside `__init__`, which returns the
(possibly empty) provider list; when no provider could be constructed,
every call to `get_live_stock_price` returns null ("not found"). -/
theorem claim_C5 (env : Env) (key : Option String) (t now : String)
    (h : StockDataFetcher.init env key = []) :
    StockDataFetcher.init_exc env key = .ok (StockDataFetcher.init env key) ∧
    get_live_stock_price (StockDataFetcher.init env key) t now = none := by
  constructor
  · unfold StockDataFetcher.init_exc StockDataFetcher.init
    cases mkYFinanceProvider env <;> rfl
  · rw [h]; rfl

/-- Witness for C5 (amended) in the fully-misconfigured environment. -/
theorem claim_C5_witness :
    StockDataFetcher.init_exc envNone none
        = .ok (StockDataFetcher.init envNone none) ∧
    get_live_stock_price (StockDataFetcher.init envNone none)
      "TSLA" "2025-01-03 09:30:00" = none :=
  claim_C5 envNone none "TSLA" "2025-01-03 09:30:00" rfl

/-- Claim C6: every successful lookup carries the ticker normalized to
uppercase and the capture timestamp; in particular lookups for `"aapl"`
and `"AAPL"` against the same provider list both yield ticker `"AAPL"`. -/
theorem claim_C6 (providers : List Provider) (t now : String) (r : Dict)
    (h : get_live_stock_price providers t now = some r) :
    dlookup r "ticker" = some (some (Val.str t.toUpper)) ∧
    dlookup r "timestamp" = some (some (Val.str now)) := by
  simp only [get_live_stock_price] at h
  by_cases he : providers.isEmpty = true
  · rw [if_pos he] at h
    exact Option.noConfusion h
  · rw [if_neg he] at h
    cases hsc : quoteScan providers t with
    | nil =>
      rw [hsc] at h
      simp at h
    | cons a l =>
      rw [hsc] at h
      simp only [List.isEmpty_cons, Bool.false_eq_true, if_false] at h
      injection h with hr
      subst hr
      exact ⟨dlookup_final_ticker _ _ _, dlookup_final_timestamp _ _ _⟩

/-- Witness for C6: a lookup for lowercase `"aapl"` yields ticker
`"AAPL"` and the capture timestamp. -/
theorem claim_C6_witness :
    dlookup wResult "ticker" = some (some (Val.str "AAPL")) ∧
    dlookup wResult "timestamp" = some (some (Val.str "2025-01-02 10:00:00")) := by
  have h := claim_C6 [provB] "aapl" "2025-01-02 10:00:00" wResult rfl
  have hu : "aapl".toUpper = "AAPL" := by
    rw [show "aapl".toUpper = "aapl".map Char.toUpper from rfl, String.map_eq]
    decide
  exact ⟨by rw [h.1, hu], h.2⟩

/-- Counterexample to C7 as stated: `YFinanceProvider.get_quote` accepts a
negative upstream price — its truthiness check `if current and prev_close:`
rules out only zero — so a non-null quote with price −5 is produced. -/
theorem claim_C7_cex :
    fieldOf (yf_get_quote (some yfNegInfo)) "price" = some (some (Val.num (-5))) ∧
    ¬ (0 < (-5 : ℚ)) := by
  constructor <;> decide

/-- Claim C7 as amended: every non-null quote from `FinnhubProvider.get_quote`
has a strictly positive price (the code checks `quote['c'] > 0`);
every non-null quote from `YFinanceProvider.get_quote` has a non-null,
nonzero price, but its sign is not checked. -/
theorem claim_C7 (resp : Option FinnhubResp) (info : Option YfInfo) (df dy : Dict)
    (hf : finnhub_get_quote resp = some df) (hy : yf_get_quote info = some dy) :
    (∃ c : ℚ, dlookup df "price" = some (some (Val.num c)) ∧ 0 < c) ∧
    (∃ c : ℚ, dlookup dy "price" = some (some (Val.num c)) ∧ c ≠ 0) := by
  obtain ⟨c, pc, chg, chgp, q, hresp, hcpos, _, _, _, _, hdf⟩ :=
    finnhub_quote_shape resp df hf
  obtain ⟨cur, pcy, i, hinfo, hcur, hpcy, _, hdy⟩ := yf_quote_shape info dy hy
  subst hdf
  subst hdy
  exact ⟨⟨c, dlookup_cons_self _ _ _, hcpos⟩, ⟨cur, dlookup_cons_self _ _ _, hcur⟩⟩

/-- Witness for C7 (amended) on concrete well-formed responses. -/
theorem claim_C7_witness :
    (∃ c : ℚ, dlookup fhWDict "price" = some (some (Val.num c)) ∧ 0 < c) ∧
    (∃ c : ℚ, dlookup yfWDict "price" = some (some (Val.num c)) ∧ c ≠ 0) :=
  claim_C7 (some fhWResp) (some yfWInfo) fhWDict yfWDict rfl rfl

/-- Counterexample to C8 as stated: `FinnhubProvider.get_quote` copies
`change` and `change_percent` verbatim from the upstream response, so a
response with `c=100, pc=50, d=7, dp=3` yields a non-null quote whose
`previous_close` is nonzero but whose `change` is not `price −
previous_close` and whose `change_percent` is not `change/previous_close ×
100`. -/
theorem claim_C8_cex :
    fieldOf (finnhub_get_quote (some fhBadResp)) "price" = some (some (Val.num 100)) ∧
    fieldOf (finnhub_get_quote (some fhBadResp)) "previous_close"
      = some (some (Val.num 50)) ∧
    fieldOf (finnhub_get_quote (some fhBadResp)) "change" = some (some (Val.num 7)) ∧
    fieldOf (finnhub_get_quote (some fhBadResp)) "change_percent"
      = some (some (Val.num 3)) ∧
    (50 : ℚ) ≠ 0 ∧ (7 : ℚ) ≠ 100 - 50 ∧ (3 : ℚ) ≠ (100 - 50) / 50 * 100 := by
  refine ⟨by decide, by decide, by decide, by decide, by decide, by norm_num, by norm_num⟩

/-- Claim C8 as amended: every non-null quote from
`YFinanceProvider.get_quote` has a nonzero `previous_close`, its `change`
equals `price − previous_close`, and its `change_percent` equals
`change / previous_close × 100`; `FinnhubProvider` instead copies the
upstream `d`/`dp` fields without a consistency check. -/
theorem claim_C8 (info : Option YfInfo) (dy : Dict)
    (hy : yf_get_quote info = some dy) :
    ∃ c p : ℚ, p ≠ 0 ∧
      dlookup dy "price" = some (some (Val.num c)) ∧
      dlookup dy "previous_close" = some (some (Val.num p)) ∧
      dlookup dy "change" = some (some (Val.num (c - p))) ∧
      dlookup dy "change_percent" = some (some (Val.num ((c - p) / p * 100))) := by
  obtain ⟨cur, pc, i, hinfo, hcur, hpc, _, hdy⟩ := yf_quote_shape info dy hy
  subst hdy
  refine ⟨cur, pc, hpc, dlookup_cons_self _ _ _, ?_, ?_, ?_⟩
  · rw [dlookup_cons_ne _ _ _ _ (by decide)]
    exact dlookup_cons_self _ _ _
  · rw [dlookup_cons_ne _ _ _ _ (by decide), dlookup_cons_ne _ _ _ _ (by decide)]
    exact dlookup_cons_self _ _ _
  · rw [dlookup_cons_ne _ _ _ _ (by decide), dlookup_cons_ne _ _ _ _ (by decide),
      dlookup_cons_ne _ _ _ _ (by decide)]
    exact dlookup_cons_self _ _ _

/-- Witness for C8 (amended) on a concrete yfinance response. -/
theorem claim_C8_witness :
    ∃ c p : ℚ, p ≠ 0 ∧
      dlookup yfWDict "price" = some (some (Val.num c)) ∧
      dlookup yfWDict "previous_close" = some (some (Val.num p)) ∧
      dlookup yfWDict "change" = some (some (Val.num (c - p))) ∧
      dlookup yfWDict "change_percent" = some (some (Val.num ((c - p) / p * 100))) :=
  claim_C8 (some yfWInfo) yfWDict rfl

/-- Claim C9: a field present in the adopted base quote with a null value
is never replaced by the company-info pass, even when a later provider
supplies a non-null value for it — the merge tests key presence, not
null-ness — so the final record retains the null. -/
theorem claim_C9 (pre post : List Provider) (p : Provider) (t now k : String) (d : Dict)
    (hpre : ∀ q ∈ pre, q.get_quote t = none)
    (hq : p.get_quote t = some d)
    (hk : dlookup d k = some none)
    (hkt : k ≠ "ticker") (hks : k ≠ "timestamp") :
    ∃ r, get_live_stock_price (pre ++ p :: post) t now = some r ∧
      dlookup r k = some none := by
  have hne : d ≠ [] := by
    intro hnil
    rw [hnil] at hk
    simp [dlookup] at hk
  refine ⟨_, glsp_adopted pre post p t now d hpre hq hne, ?_⟩
  rw [dlookup_final_other _ _ _ k hkt hks,
    infoScan_preserve (pre ++ p :: post) t d k (by rw [hk]; rfl), hk]

/-- Witness for C9: the base quote holds `high: None`; a later provider
offers `high: 200`, yet the final record still has `high = None`. -/
theorem claim_C9_witness :
    ∃ r, get_live_stock_price [provHighNull, provHighInfo]
        "AAPL" "2025-01-02 10:00:00" = some r ∧
      dlookup r "high" = some none :=
  claim_C9 [] [provHighInfo] provHighNull "AAPL" "2025-01-02 10:00:00" "high"
    [("price", some (Val.num 150)), ("high", none)]
    (by intro q hq; exact absurd hq (List.not_mem_nil q))
    rfl (by decide) (by decide) (by decide)

/-- Claim C10: with an empty provider list, `get_live_stock_price`
returns null without raising and without any provider call. -/
theorem claim_C10 (t now : String) :
    get_live_stock_price [] t now = none ∧
    get_live_stock_price_exc [] t now = .ok none :=
  ⟨rfl, rfl⟩

end FinFusion
